import Mathlib

set_option autoImplicit false

/-!
Verification of the `hyper-json-stream` crate against its specification.

We shallowly embed the Rust sources:
  * `src/ffi/c.rs`        — the allocator bridge (`zalloc` / `zfree`);
  * `src/util/mod.rs`     — `get_content_length` and the error taxonomy;
  * `src/stream/encoding.rs` — `ContentEncoding` classification;
  * `src/stream/json_stream.rs` — the protocol state machine `State::poll`.

Machine integers are modelled as `Nat` with explicit bounds (`uInt` = u32,
`usize` = u64, 64-bit target).  External collaborators (the zlib inflate
engine, the transport body, the missing `partial_json.rs` extractor and the
UTF-8 validation of the Rust standard library) are parameters of the embedding:
their results are inputs to the transition function, exactly as the source
pattern-matches on them.
-/

/-! ## Allocator bridge: `src/ffi/c.rs` -/

/-- `align_of::<usize>()` on the 64-bit target. -/
def ALIGN : Nat := 8

/-- Size of the `usize` header (`mem::size_of::<usize>()`). -/
def USIZE_SIZE : Nat := 8

/-- `u32::MAX + 1`; `uInt` (`c_uint`) arithmetic lives below this bound. -/
def U32MOD : Nat := 2 ^ 32

/-- `usize::MAX + 1` on the 64-bit target. -/
def USIZEMOD : Nat := 2 ^ 64

/-- `fn align_up(size, align) -> usize { (size + align - 1) & !(align - 1) }`
(from `src/ffi/c.rs`).  For a power-of-two `align` and arguments small enough
not to wrap, this is rounding up to a multiple of `align`. -/
def align_up (size align : Nat) : Nat :=
  (size + align - 1) &&& (USIZEMOD - 1 - (align - 1))

/-- The size computation of `zalloc` (`src/ffi/c.rs` lines 20–28):
`items.checked_mul(item_size)` in `uInt`, conversion to `usize`,
`align_up(_, ALIGN)`, then `checked_add(size_of::<usize>())`.
`none` is the `ptr::null_mut()` failure return. -/
def zallocSize (items item_size : Nat) : Option Nat :=
  let mul := items * item_size
  if mul ≥ U32MOD then none
  else
    let aligned := align_up mul ALIGN
    if aligned + USIZE_SIZE ≥ USIZEMOD then none
    else some (aligned + USIZE_SIZE)

/-- `Layout::from_size_align(size, ALIGN)` succeeds iff `size`, rounded up to
a multiple of the (power-of-two) alignment, does not overflow `isize`. -/
def layoutOk (size align : Nat) : Bool :=
  decide (size + (align - 1) < 2 ^ 63)

/-- A live allocation made by the bridge: `base` is the address handed out by
the host allocator (where the header lives), `size` the total size stored in
the header, `align` the alignment of the `Layout` used. -/
structure Block where
  base : Nat
  size : Nat
  align : Nat
  deriving Repr, DecidableEq

/-- The host heap, abstracted as the list of live blocks. -/
def Heap := List Block

instance : DecidableEq Heap := by
  unfold Heap
  infer_instance

/-- A fresh address: past the end of every live block. -/
def freshAddr (h : Heap) : Nat :=
  h.foldr (fun b acc => max acc (b.base + b.size)) 0

/-- `zalloc(_, items, item_size)` (`src/ffi/c.rs` lines 15–46) over the heap
model: compute the checked size, check the `Layout`, allocate, store the
total size in the header, and return the pointer just past the header.
`none` models the `ptr::null_mut()` failure return. -/
def zalloc (h : Heap) (items item_size : Nat) : Heap × Option Nat :=
  match zallocSize items item_size with
  | none => (h, none)
  | some size =>
    if layoutOk size ALIGN then
      let base := freshAddr h
      (⟨base, size, ALIGN⟩ :: h, some (base + USIZE_SIZE))
    else (h, none)

/-- `zfree(_, address)` (`src/ffi/c.rs` lines 48–58): step back one `usize`
from `address`, read the stored size, rebuild the `Layout` with `ALIGN`, and
deallocate.  Returns the heap with the block removed together with the
`(size, align)` description passed to `dealloc`; `none` when no live block
starts at `address - USIZE_SIZE` (which the engine contract rules out). -/
def zfree (h : Heap) (address : Nat) : Heap × Option (Nat × Nat) :=
  match h.find? (fun b => b.base == address - USIZE_SIZE) with
  | none => (h, none)
  | some b => (h.erase b, some (b.size, ALIGN))

/-! ## `src/util/mod.rs`: content length -/

/-- `http::HeaderValue::to_str` succeeds iff every byte is visible ASCII
(32–126) or horizontal tab. -/
def headerToStr (bytes : List Nat) : Option (List Nat) :=
  if bytes.all (fun b => (32 ≤ b ∧ b ≤ 126) ∨ b = 9) then some bytes else none

/-- `str::parse::<usize>()`: an optional leading `+`, then one or more ASCII
digits, rejecting values above `usize::MAX`.  The input is the byte list of
the header value (`43` is `+`, `48`–`57` are the digits). -/
def parseUsize (bytes : List Nat) : Option Nat :=
  let digits := match bytes with
    | 43 :: rest => rest
    | _ => bytes
  if digits = [] then none
  else if digits.all (fun b => 48 ≤ b ∧ b ≤ 57) then
    let v := digits.foldl (fun acc b => acc * 10 + (b - 48)) 0
    if v < USIZEMOD then some v else none
  else none

/-- `get_content_length` (`src/util/mod.rs` lines 6–13): read the
`Content-Length` header, `to_str`, `parse`, defaulting to `0` at every
failure.  The argument is the raw header value, `none` when absent. -/
def get_content_length (contentLength : Option (List Nat)) : Nat :=
  ((contentLength.bind headerToStr).bind parseUsize).getD 0

/-! ## `src/stream/encoding.rs` -/

/-- The `ContentEncoding` enum. -/
inductive ContentEncoding
  | None
  | Gzip
  deriving Repr, DecidableEq

/-- `ContentEncoding::from_str` (`src/stream/encoding.rs` lines 14–19):
`"gzip"` maps to `Gzip`, everything else to `None`; the `Result` is always
`Ok`, so the embedding is total. -/
def ContentEncoding.fromStr (s : String) : ContentEncoding :=
  if s = "gzip" then .Gzip else .None

/-- Header classification in `State::poll` (`src/stream/json_stream.rs`
lines 113–119): a present `Content-Encoding` header is converted with
`from_str`, an absent one yields `ContentEncoding::None`. -/
def classifyEncoding (contentEncoding : Option String) : ContentEncoding :=
  match contentEncoding with
  | some s => ContentEncoding.fromStr s
  | none => ContentEncoding.None

/-! ## `src/stream/json_stream.rs`: the protocol state machine

The stream depends on external collaborators whose code is not part of the
crate: the zlib inflate engine (reached through FFI), the hyper response
future and body, the serde decoder, and the element extractor
(`src/stream/partial_json.rs`, whose source is not present in the crate
snapshot — only its call sites are).  Their results are supplied to the
transition function as inputs, mirroring how `State::poll` pattern-matches
on them; the extractor is represented by the byte buffer the state machine
has pushed into it. -/

/-- `zlib::Z_OK`. -/
def Z_OK : Int := 0

/-- `zlib::Z_BUF_ERROR`. -/
def Z_BUF_ERROR : Int := -5

/-- `zlib::Z_STREAM_END` (any status other than `Z_OK`/`Z_BUF_ERROR` takes
the fatal branch of the feed loop; this one is what zlib reports at the end
of a gzip stream). -/
def Z_STREAM_END : Int := 1

/-- The error taxonomy (`src/util/mod.rs` lines 15–25 together with the
`EncodingError` variant used by `src/stream/json_stream.rs`).  `ApiError`
carries the decoded body text; since `String::from_utf8` returns the very
bytes it validated, the text is carried as the byte list.  Variants whose
payload the claims never inspect are modelled without payload. -/
inductive JsonStreamError
  | HyperError
  | HttpError
  | IOError (msg : String)
  | JsonError
  | ApiError (status : Nat) (body : List Nat)
  | MalformedJson (msg : String)
  | EncodingError (msg : String)
  deriving Repr, DecidableEq

/-- The `State<T>` enum (`src/stream/json_stream.rs` lines 32–44).
`Collecting` keeps the encoding, the bytes pushed into the element
extractor so far (standing in for `PartialJson<T>`), the abstract internal
state of the inflate engine (standing in for the `*mut z_stream` contents)
and the per-chunk counter `total_in`.  `CollectingError` keeps the status,
the capacity passed to `Vec::with_capacity` and the accumulated bytes. -/
inductive StreamState
  | Connecting
  | Collecting (encoding : ContentEncoding) (jsonBuf : List Nat)
      (engine : Nat) (total_in : Nat)
  | CollectingError (status : Nat) (cap : Nat) (bytes : List Nat)
  | EncodingError
  | Done
  deriving Repr, DecidableEq

/-- `FusedStream::is_terminated` (`src/stream/json_stream.rs` lines 76–81):
`matches!(self.state, State::Done())`. -/
def isTerminated (s : StreamState) : Bool :=
  match s with
  | .Done => true
  | _ => false

/-- Result of one `zlib::inflate` call: the engine state afterwards, the
returned status, the value of `stream.total_in` afterwards, and the bytes
written to `next_out`. -/
structure InflateResult where
  engine : Nat
  status : Int
  total_in : Nat
  output : List Nat

/-- The external inflate engine, abstracted as a function of the engine
state, the data at `next_in`, `avail_in`, `avail_out` and the incoming
`total_in` (which `State::poll` stores into the `z_stream` before each
call). -/
structure Engine where
  step : Nat → List Nat → Nat → Nat → Nat → InflateResult

/-- The bytes `json.push(&output_buffer)` pushes: the whole fixed 1024-byte
window `[0u8; 1024]`, of which the engine overwrote the produced prefix. -/
def window (out : List Nat) : List Nat :=
  (out ++ List.replicate 1024 0).take 1024

/-- Result of the per-chunk decompression loop: `ok` is the normal exit via
`break` (after which `State::poll` resets the counter to zero), `fatal` is
the early `return` with the `EncodingError` (`total_in` keeps the value it
had before the failing step), `noFuel` only models running out of fuel. -/
inductive FeedResult
  | ok (engine : Nat) (jsonBuf : List Nat)
  | fatal (engine : Nat) (total_in : Nat) (jsonBuf : List Nat)
  | noFuel
  deriving Repr, DecidableEq

/-- The decompression loop of `State::poll` (`src/stream/json_stream.rs`
lines 200–234), one recursive call per iteration.  Each iteration points
`next_in` at `&bytes_vec[total_in..]`, sets `avail_in` to
`min(b.len(), c_uint::MAX)` (the length of the whole chunk, not of the
remainder), `avail_out` to the 1024-byte window, stores `total_in` into the
stream, and runs `zlib::inflate`.  On `Z_BUF_ERROR`/`Z_OK` it takes the new
`total_in` and breaks when it has reached the chunk length — note that the
`break` happens before `json.push(&output_buffer)`, so the output of the
final step is never pushed; otherwise it pushes the whole window.  Any
other status returns the `EncodingError` at once. -/
def feedLoop (eng : Engine) (b : List Nat) :
    Nat → Nat → Nat → List Nat → FeedResult
  | 0, _, _, _ => .noFuel
  | fuel + 1, es, total_in, jsonBuf =>
    let data := b.drop total_in
    let r := eng.step es data (min b.length (U32MOD - 1)) 1024 total_in
    if r.status = Z_BUF_ERROR ∨ r.status = Z_OK then
      if r.total_in ≥ b.length then .ok r.engine jsonBuf
      else feedLoop eng b fuel r.engine r.total_in (jsonBuf ++ window r.output)
    else .fatal r.engine total_in jsonBuf

/-- Outcome of `ResponseFuture::poll` as matched by `State::poll`: still
pending, a response (status, `Content-Encoding` value already converted by
`to_str().unwrap()`, raw `Content-Length` value, and whether
`inflateInit2_` would return `Z_OK`), or a transport error. -/
inductive ConnEvent
  | pending
  | ok (status : Nat) (contentEncoding : Option String)
      (contentLength : Option (List Nat)) (initOk : Bool)
  | err

/-- Outcome of `json.next()` (the element extractor, whose source is
external to the snapshot): a decoded value, nothing complete yet, or a
parse failure carrying the error it returned. -/
inductive NextEvent (T : Type)
  | val (t : T)
  | nothing
  | fail (e : JsonStreamError)

/-- Outcome of `body.poll_frame` as matched by `State::poll`: pending, a
data chunk, a non-data frame (`Frame::into_data` fails), clean end of the
body, or a body error. -/
inductive BodyEvent
  | pending
  | chunk (b : List Nat)
  | nonData
  | finished
  | bodyErr

/-- Environment inputs available to one `State::poll` call; each state
reads only the components the source actually polls. -/
structure Env (T : Type) where
  conn : ConnEvent
  next : NextEvent T
  body : BodyEvent

/-- The value a single `State::poll` call produces: `pending` is
`Some(Poll::Pending)`, `item` is `Some(Poll::Ready(Some(Ok(v))))`, `error`
is `Some(Poll::Ready(Some(Err(e))))`, `exhausted` is
`Some(Poll::Ready(None))`, `again` is `None` (the outer loop in
`Stream::poll_next` re-enters `State::poll`), and `noFuel` only models
running out of fuel in the decompression loop. -/
inductive StepOut (T : Type)
  | pending
  | item (t : T)
  | error (e : JsonStreamError)
  | exhausted
  | again
  | noFuel
  deriving Repr, DecidableEq

/-- The `State::Connecting` arm (`src/stream/json_stream.rs` lines
109–182).  On a response: classify the encoding once, then branch on the
status; 200 with gzip builds the engine (entering `EncodingError` when
`inflateInit2_` fails), 200 otherwise collects raw, 204 is `Done`, any
other status enters `CollectingError` with the buffer pre-sized to
`min(get_content_length(&parts), 0x1000)`; all of these return `None`
(`again`).  A transport error goes to `Done` yielding the error. -/
def connectingStep (T : Type) (e : ConnEvent) : StreamState × StepOut T :=
  match e with
  | .pending => (.Connecting, .pending)
  | .err => (.Done, .error .HyperError)
  | .ok status contentEncoding contentLength initOk =>
    let encoding := classifyEncoding contentEncoding
    if status = 200 then
      if encoding = .Gzip then
        if initOk then (.Collecting .Gzip [] 0 0, .again)
        else (.EncodingError, .again)
      else (.Collecting encoding [] 0 0, .again)
    else if status = 204 then (.Done, .again)
    else
      (.CollectingError status (min (get_content_length contentLength) 0x1000) [],
       .again)

/-- The `State::Collecting` arm (`src/stream/json_stream.rs` lines
183–261).  `json.next()` first: a value is yielded in place, a parse
failure goes to `Done` with the error.  Otherwise the body is polled: a
chunk is pushed directly when uncompressed or run through `feedLoop` when
compressed (on fatal inflate status the error is returned with the state
left as `Collecting` and the stale counter); a non-data frame yields the
`IOError` in place; a clean end yields `Ready(None)` with the state left as
`Collecting`; a body error goes to `Done` with the error. -/
def collectingStep (T : Type) (eng : Engine) (fuel : Nat)
    (encoding : ContentEncoding) (jsonBuf : List Nat) (es total_in : Nat)
    (n : NextEvent T) (bodyEv : BodyEvent) : StreamState × StepOut T :=
  match n with
  | .val t => (.Collecting encoding jsonBuf es total_in, .item t)
  | .fail e => (.Done, .error e)
  | .nothing =>
    match bodyEv with
    | .pending => (.Collecting encoding jsonBuf es total_in, .pending)
    | .nonData => (.Collecting encoding jsonBuf es total_in,
        .error (.IOError "Could not get bytes from frame"))
    | .finished => (.Collecting encoding jsonBuf es total_in, .exhausted)
    | .bodyErr => (.Done, .error .HyperError)
    | .chunk b =>
      if encoding = .None then
        (.Collecting encoding (jsonBuf ++ b) es total_in, .again)
      else
        match feedLoop eng b fuel es total_in jsonBuf with
        | .ok es2 buf2 => (.Collecting encoding buf2 es2 0, .again)
        | .fatal es2 ti2 buf2 =>
          (.Collecting encoding buf2 es2 ti2,
           .error (.EncodingError "Failed to decode bytes"))
        | .noFuel => (.Collecting encoding jsonBuf es total_in, .noFuel)

/-- The `State::CollectingError` arm (`src/stream/json_stream.rs` lines
262–296), parametrised by the UTF-8 validity test of `String::from_utf8`
(Rust standard library; on success the text is the validated bytes): a
chunk extends the accumulated bytes, the end of the body decodes them —
`ApiError(status, text)` on success, `MalformedJson` on failure — and goes
to `Done`; a body error goes to `Done` with the error. -/
def collectingErrorStep (T : Type) (utf8Valid : List Nat → Bool)
    (status cap : Nat) (bytes : List Nat) (bodyEv : BodyEvent) :
    StreamState × StepOut T :=
  match bodyEv with
  | .pending => (.CollectingError status cap bytes, .pending)
  | .chunk b => (.CollectingError status cap (bytes ++ b), .again)
  | .nonData => (.CollectingError status cap bytes,
      .error (.IOError "Could not get bytes from frame"))
  | .bodyErr => (.Done, .error .HyperError)
  | .finished =>
    if utf8Valid bytes then (.Done, .error (.ApiError status bytes))
    else (.Done, .error (.MalformedJson "invalid utf-8"))

/-- One `State::poll` call (`src/stream/json_stream.rs` lines 100–303): the
arms above, plus `State::EncodingError`, which yields its error with the
state left unchanged (lines 297–299 perform no assignment to `self`), and
`State::Done`, which yields `Ready(None)`. -/
def pollStep (T : Type) (eng : Engine) (fuel : Nat)
    (utf8Valid : List Nat → Bool) (s : StreamState) (env : Env T) :
    StreamState × StepOut T :=
  match s with
  | .Connecting => connectingStep T env.conn
  | .Collecting encoding jsonBuf es total_in =>
    collectingStep T eng fuel encoding jsonBuf es total_in env.next env.body
  | .CollectingError status cap bytes =>
    collectingErrorStep T utf8Valid status cap bytes env.body
  | .EncodingError =>
    (.EncodingError,
     .error (.EncodingError "Failed to decode the payload with gzip"))
  | .Done => (.Done, .exhausted)

/-- A sequence of `State::poll` calls: the final state and the value each
call produced. -/
def runPolls (T : Type) (eng : Engine) (fuel : Nat)
    (utf8Valid : List Nat → Bool) :
    StreamState → List (Env T) → StreamState × List (StepOut T)
  | s, [] => (s, [])
  | s, e :: es =>
    let r := pollStep T eng fuel utf8Valid s e
    let rest := runPolls T eng fuel utf8Valid r.1 es
    (rest.1, r.2 :: rest.2)

/-- Engine finalisations performed by one `State::poll` transition.
`src/stream/json_stream.rs` contains no call to `zlib::inflateEnd` and no
`Box::from_raw` on the stored `*mut z_stream` in any arm, so every arm
performs zero finalisations; the match mirrors the arms of the source. -/
def pollReleases (T : Type) (s : StreamState) (env : Env T) : Nat :=
  match s, env with
  | .Connecting, _ => 0
  | .Collecting _ _ _ _, _ => 0
  | .CollectingError _ _ _, _ => 0
  | .EncodingError, _ => 0
  | .Done, _ => 0

/-- Engine finalisations performed when the `JsonStream` is dropped in a
given state: the crate implements `Drop` neither for `JsonStream` nor for
`State`, and dropping a raw pointer field is a no-op, so no state releases
the engine on drop. -/
def dropReleases (s : StreamState) : Nat :=
  match s with
  | _ => 0

/-- Engine finalisations over a whole run: those of each poll plus those of
the final drop. -/
def totalReleases (T : Type) (eng : Engine) (fuel : Nat)
    (utf8Valid : List Nat → Bool) :
    StreamState → List (Env T) → Nat
  | s, [] => dropReleases s
  | s, e :: es =>
    pollReleases T s e +
      totalReleases T eng fuel utf8Valid (pollStep T eng fuel utf8Valid s e).1 es

/-- The `&str` view of a header value whose bytes passed `to_str`: for
visible-ASCII bytes the text is the bytes themselves, one character per
byte. -/
def stringOfBytes (bytes : List Nat) : String :=
  String.mk (bytes.map Char.ofNat)

/-- The `State::Connecting` response arm taken from the raw
`Content-Encoding` header value (`src/stream/json_stream.rs` lines
113–182): `content_encoding.to_str()` (modelled by `headerToStr`) is
`unwrap`ped — `none` here is the panic that kills the poll when the value
holds a non-visible-ASCII byte, before the status is even examined — and
the resulting text feeds the rest of the arm (`connectingStep`). -/
def connectingStepRaw (T : Type) (status : Nat)
    (contentEncoding : Option (List Nat)) (contentLength : Option (List Nat))
    (initOk : Bool) : Option (StreamState × StepOut T) :=
  match contentEncoding with
  | none => some (connectingStep T (.ok status none contentLength initOk))
  | some bytes =>
    match headerToStr bytes with
    | none => none
    | some b =>
      some (connectingStep T (.ok status (some (stringOfBytes b)) contentLength initOk))

/-! ## Theorems about the allocator bridge -/

/-- With the 8-byte mask of the 64-bit target, `align_up` is rounding up to
a multiple of 8, for inputs that do not wrap. -/
theorem align_up_eight (p : Nat) (hp : p + 7 < 2 ^ 64) :
    align_up p 8 = (p + 7) / 8 * 8 := by
  unfold align_up
  have hm : USIZEMOD - 1 - (8 - 1) = (2 ^ 61 - 1) <<< 3 := by
    norm_num [Nat.shiftLeft_eq, USIZEMOD]
  have hp8 : p + 8 - 1 = p + 7 := by omega
  have hdiv : (p + 7) / 8 * 8 = ((p + 7) >>> 3) <<< 3 := by
    rw [Nat.shiftRight_eq_div_pow, Nat.shiftLeft_eq]
  rw [hm, hp8, hdiv]
  apply Nat.eq_of_testBit_eq
  intro i
  rw [Nat.testBit_land, Nat.testBit_shiftLeft, Nat.testBit_shiftLeft,
    Nat.testBit_shiftRight, Nat.testBit_two_pow_sub_one]
  by_cases h3 : 3 ≤ i
  · by_cases h64 : i < 64
    · have hi3 : 3 + (i - 3) = i := by omega
      rw [hi3]
      have hlt : i - 3 < 61 := by omega
      simp [ge_iff_le, h3, hlt]
    · have hlt : p + 7 < 2 ^ i :=
        lt_of_lt_of_le hp (Nat.pow_le_pow_right (by norm_num) (by omega))
      have hi3 : 3 + (i - 3) = i := by omega
      rw [hi3, Nat.testBit_lt_two_pow hlt]
      have hge : ¬ (i - 3 < 61) := by omega
      simp [hge]
  · simp [ge_iff_le, h3]

/-- In-range size computation: no `checked_mul` overflow means the size is
the payload rounded up to 8 plus the 8-byte header. -/
theorem zallocSize_success (items item_size : Nat)
    (hlt : items * item_size < U32MOD) :
    zallocSize items item_size
      = some ((items * item_size + 7) / 8 * 8 + 8) := by
  have hb : items * item_size + 7 < 2 ^ 64 := by
    simp only [U32MOD] at hlt; omega
  have ha := align_up_eight (items * item_size) hb
  simp only [zallocSize, ALIGN, USIZE_SIZE, USIZEMOD, U32MOD] at *
  rw [ha, if_neg (by omega), if_neg (by omega)]

/-- A `checked_mul` overflow makes the size computation fail. -/
theorem zallocSize_overflow (items item_size : Nat)
    (hge : items * item_size ≥ U32MOD) :
    zallocSize items item_size = none := by
  simp only [zallocSize]
  rw [if_pos hge]

/-- In-range allocation succeeds and produces the block and the offset
pointer. -/
theorem zalloc_success (h : Heap) (items item_size : Nat)
    (hlt : items * item_size < U32MOD) :
    zalloc h items item_size
      = (⟨freshAddr h, (items * item_size + 7) / 8 * 8 + 8, ALIGN⟩ :: h,
         some (freshAddr h + USIZE_SIZE)) := by
  have hz := zallocSize_success items item_size hlt
  have hlay : layoutOk ((items * item_size + 7) / 8 * 8 + 8) ALIGN = true := by
    simp only [layoutOk, ALIGN, decide_eq_true_eq]
    simp only [U32MOD] at hlt
    omega
  simp only [zalloc, hz, hlay, if_true]

/-- A pointer returned by a successful `zalloc` is freed by `zfree` with the
identical `(size, align)` description, and the heap returns to its previous
state. -/
theorem zalloc_zfree_roundtrip (h h2 : Heap) (items item_size p : Nat)
    (hsucc : zalloc h items item_size = (h2, some p)) :
    ∃ size, h2 = ⟨p - USIZE_SIZE, size, ALIGN⟩ :: h ∧
      zfree h2 p = (h, some (size, ALIGN)) := by
  unfold zalloc at hsucc
  split at hsucc
  · simp at hsucc
  · rename_i size hz
    split at hsucc
    · have hh2 : h2 = ⟨freshAddr h, size, ALIGN⟩ :: h := by
        have hfst := congrArg Prod.fst hsucc
        simp at hfst
        exact hfst.symm
      have hp : p = freshAddr h + USIZE_SIZE := by
        have hsnd := congrArg Prod.snd hsucc
        simp at hsnd
        exact hsnd.symm
      refine ⟨size, ?_, ?_⟩
      · rw [hh2, hp]
        simp [USIZE_SIZE]
      · rw [hh2, hp]
        unfold zfree
        simp [List.find?, Nat.add_sub_cancel, List.erase_cons_head]
    · simp at hsucc

/-- Alternating allocate/free cycles, as exercised by the engine: allocate
for one `(count, item_size)` pair, free the returned pointer, continue with
the rest; `none` records a free that found no matching live block. -/
def allocFreeCycles (h : Heap) : List (Nat × Nat) → Option Heap
  | [] => some h
  | (c, s) :: rest =>
    match zalloc h c s with
    | (h2, some p) =>
      match zfree h2 p with
      | (h3, some _) => allocFreeCycles h3 rest
      | (_, none) => none
    | (_, none) => allocFreeCycles h rest

/-- Alternating cycles always restore the heap: every free succeeds on a
live block and no block stays behind. -/
theorem allocFreeCycles_id (pairs : List (Nat × Nat)) :
    ∀ h : Heap, allocFreeCycles h pairs = some h := by
  induction pairs with
  | nil => intro h; rfl
  | cons q rest ih =>
    intro h
    obtain ⟨c, s⟩ := q
    unfold allocFreeCycles
    cases hz : zalloc h c s with
    | mk h2 po =>
      cases po with
      | none => exact ih h
      | some ptr =>
        obtain ⟨size, _, hfree⟩ := zalloc_zfree_roundtrip h h2 c s ptr hz
        simp only [hfree]
        exact ih h

/-- C7: for every `(count, item_size)` pair of `u32` values, `zalloc`
rejects a `count * item_size` overflow by returning the null pointer (and
in range the later `checked_add` of the header can never overflow, so null
is returned exactly on multiplication overflow); on success it rounds the
payload up to pointer alignment, adds the 8-byte `usize` header, records
the total allocated size in the header block, and returns the pointer just
past the header. -/
theorem C7_zalloc_overflow_and_layout (h : Heap) (items item_size : Nat)
    (hi : items < U32MOD) (hs : item_size < U32MOD) :
    ((zalloc h items item_size).2 = none ↔ items * item_size ≥ U32MOD) ∧
    (items * item_size < U32MOD →
      align_up (items * item_size) ALIGN = (items * item_size + 7) / 8 * 8 ∧
      zalloc h items item_size
        = (⟨freshAddr h,
            align_up (items * item_size) ALIGN + USIZE_SIZE, ALIGN⟩ :: h,
           some (freshAddr h + USIZE_SIZE))) := by
  by_cases hlt : items * item_size < U32MOD
  · have hb : items * item_size + 7 < 2 ^ 64 := by
      simp only [U32MOD] at hlt; omega
    have ha := align_up_eight (items * item_size) hb
    have hz := zalloc_success h items item_size hlt
    constructor
    · rw [hz]
      simp only [ALIGN]
      constructor
      · intro hnone; simp at hnone
      · intro hge; omega
    · intro _
      refine ⟨by simpa [ALIGN] using ha, ?_⟩
      rw [hz]
      simp [ALIGN, USIZE_SIZE, ha]
  · have hge : items * item_size ≥ U32MOD := by omega
    have hz := zallocSize_overflow items item_size hge
    constructor
    · simp only [zalloc, hz]
      exact ⟨fun _ => hge, fun _ => trivial⟩
    · intro hlt2; omega

/-- Witness for C7 at `count = 3`, `item_size = 5` on the empty heap. -/
theorem C7_zalloc_overflow_and_layout_witness :
    ((zalloc [] 3 5).2 = none ↔ 3 * 5 ≥ U32MOD) ∧
    (3 * 5 < U32MOD →
      align_up (3 * 5) ALIGN = (3 * 5 + 7) / 8 * 8 ∧
      zalloc [] 3 5
        = (⟨freshAddr [], align_up (3 * 5) ALIGN + USIZE_SIZE, ALIGN⟩ :: [],
           some (freshAddr [] + USIZE_SIZE))) :=
  C7_zalloc_overflow_and_layout [] 3 5 (by norm_num [U32MOD]) (by norm_num [U32MOD])

/-- C8: freeing a pointer obtained from a successful `zalloc` steps back by
the header width, recovers the stored total size, hands the identical
`(size, align)` description back to the host allocator, and restores the
heap; consequently alternating allocate/free cycles never leak a block and
never free a dead one. -/
theorem C8_zfree_reconstructs_layout (h h2 : Heap) (items item_size p : Nat)
    (hsucc : zalloc h items item_size = (h2, some p)) :
    (∃ size, h2 = ⟨p - USIZE_SIZE, size, ALIGN⟩ :: h ∧
       zfree h2 p = (h, some (size, ALIGN))) ∧
    ∀ pairs : List (Nat × Nat), allocFreeCycles h pairs = some h :=
  ⟨zalloc_zfree_roundtrip h h2 items item_size p hsucc,
   fun pairs => allocFreeCycles_id pairs h⟩

/-- Witness for C8: allocating `2 × 4` bytes on the empty heap returns
pointer 8, and freeing it restores the heap. -/
theorem C8_zfree_reconstructs_layout_witness :
    (∃ size, ([⟨0, 16, 8⟩] : Heap) = ⟨8 - USIZE_SIZE, size, ALIGN⟩ :: [] ∧
       zfree [⟨0, 16, 8⟩] 8 = ([], some (size, ALIGN))) ∧
    ∀ pairs : List (Nat × Nat), allocFreeCycles [] pairs = some [] :=
  C8_zfree_reconstructs_layout [] [⟨0, 16, 8⟩] 2 4 8 (by decide)

/-! ## Theorems about the state machine -/

/-- A minimal well-behaved test double for the inflate engine:
"decompression" is the identity, so the full decompression of a chunk is
the chunk itself.  Like zlib, one step consumes input until the input or
the output window is exhausted, writes the produced bytes to the window,
reports `Z_OK`, and advances `total_in` by the bytes consumed. -/
def identityEngine : Engine where
  step := fun es data avail_in avail_out total_in =>
    let consumed := min (min data.length avail_in) avail_out
    ⟨es, Z_OK, total_in + consumed, data.take consumed⟩

/-- A test double whose next step reports `Z_STREAM_END` (as zlib does at
the end of a gzip stream) without consuming input. -/
def streamEndEngine : Engine where
  step := fun es _ _ _ total_in => ⟨es, Z_STREAM_END, total_in, []⟩

/-- C9 as stated is false at the program level: a 200 response whose
`Content-Encoding` value holds the non-visible-ASCII byte `0x80` (a legal
`HeaderValue` the transport can deliver) makes `to_str().unwrap()` panic,
so neither the raw nor the compressed path is selected. -/
theorem C9_counterexample :
    connectingStepRaw Unit 200 (some [128]) none true = none ∧
    connectingStepRaw Unit 200 (some [128]) none true
      ≠ some (.Collecting .None [] 0 0, .again) := by
  constructor
  · rfl
  · decide

/-- C9 (amended): for a 200 response, an absent `Content-Encoding` header
selects the raw path; a present value either fails `to_str` (some byte is
not visible ASCII or tab), in which case the `unwrap` panics and no path is
selected, or converts to text — then the compressed path is selected
exactly when that text is `"gzip"` (engine-init failure sending it to
`EncodingError`), and any other text selects the raw path.  The
classification is computed once, in the `Connecting` arm, when the
response arrives. -/
theorem C9_gzip_selects_compressed_path_raw (ce : Option (List Nat))
    (contentLength : Option (List Nat)) (initOk : Bool) :
    (ce = none → connectingStepRaw Unit 200 ce contentLength initOk
        = some (.Collecting .None [] 0 0, .again)) ∧
    (∀ bytes, ce = some bytes →
      (headerToStr bytes = none ∧
         connectingStepRaw Unit 200 ce contentLength initOk = none) ∨
      (headerToStr bytes = some bytes ∧
         connectingStepRaw Unit 200 ce contentLength initOk
           = some (if stringOfBytes bytes = "gzip" then
                     (if initOk then (.Collecting .Gzip [] 0 0, .again)
                      else (.EncodingError, .again))
                   else (.Collecting .None [] 0 0, .again)))) := by
  constructor
  · intro h
    subst h
    rfl
  · intro bytes hce
    subst hce
    by_cases hv : headerToStr bytes = none
    · exact Or.inl ⟨hv, by simp [connectingStepRaw, hv]⟩
    · have hsome : headerToStr bytes = some bytes := by
        unfold headerToStr at hv ⊢
        split at hv
        · next hc => rw [if_pos hc]
        · exact absurd rfl hv
      refine Or.inr ⟨hsome, ?_⟩
      simp only [connectingStepRaw, hsome]
      by_cases hg : stringOfBytes bytes = "gzip"
      · cases initOk <;>
          simp [connectingStep, classifyEncoding, ContentEncoding.fromStr, hg]
      · simp [connectingStep, classifyEncoding, ContentEncoding.fromStr, hg]

/-- Witness for C9 at the gzip header value (bytes of `"gzip"`). -/
theorem C9_gzip_selects_compressed_path_raw_witness :
    ((some [103, 122, 105, 112] : Option (List Nat)) = none →
      connectingStepRaw Unit 200 (some [103, 122, 105, 112]) none true
        = some (.Collecting .None [] 0 0, .again)) ∧
    (∀ bytes, (some [103, 122, 105, 112] : Option (List Nat)) = some bytes →
      (headerToStr bytes = none ∧
         connectingStepRaw Unit 200 (some [103, 122, 105, 112]) none true = none) ∨
      (headerToStr bytes = some bytes ∧
         connectingStepRaw Unit 200 (some [103, 122, 105, 112]) none true
           = some (if stringOfBytes bytes = "gzip" then
                     (if true then (.Collecting .Gzip [] 0 0, .again)
                      else (.EncodingError, .again))
                   else (.Collecting .None [] 0 0, .again)))) :=
  C9_gzip_selects_compressed_path_raw (some [103, 122, 105, 112]) none true

/-- C10: when the `Content-Length` header is absent or does not survive
`to_str().parse()`, `get_content_length` returns 0, and a non-200/204
response pre-sizes its error-body buffer to `min(0, 4096) = 0`. -/
theorem C10_unparseable_content_length_gives_zero
    (contentLength : Option (List Nat))
    (hbad : (contentLength.bind headerToStr).bind parseUsize = none)
    (status : Nat) (h200 : status ≠ 200) (h204 : status ≠ 204)
    (contentEncoding : Option String) (initOk : Bool) (eng : Engine)
    (fuel : Nat) (utf8Valid : List Nat → Bool) :
    get_content_length contentLength = 0 ∧
    min (get_content_length contentLength) 0x1000 = 0 ∧
    pollStep Unit eng fuel utf8Valid .Connecting
        ⟨.ok status contentEncoding contentLength initOk, .nothing, .pending⟩
      = (.CollectingError status 0 [], .again) := by
  have h0 : get_content_length contentLength = 0 := by
    simp [get_content_length, hbad]
  refine ⟨h0, by simp [h0], ?_⟩
  simp [pollStep, connectingStep, h200, h204, h0]

/-- Witness for C10: header value `"abc"`, status 500. -/
theorem C10_unparseable_content_length_gives_zero_witness :
    get_content_length (some [97, 98, 99]) = 0 ∧
    min (get_content_length (some [97, 98, 99])) 0x1000 = 0 ∧
    pollStep Unit identityEngine 1 (fun _ => true) .Connecting
        ⟨.ok 500 none (some [97, 98, 99]) true, .nothing, .pending⟩
      = (.CollectingError 500 0 [], .again) :=
  C10_unparseable_content_length_gives_zero (some [97, 98, 99]) (by decide)
    500 (by decide) (by decide) none true identityEngine 1 (fun _ => true)

/-- C1 (evaluation at the failing input): feeding the chunk `[1, 2, 3, 4]`
through the feed loop with the identity engine delivers nothing to the
element extractor, although the full decompression of the chunk is the
chunk itself.  The step consumes the whole chunk, reports `Z_OK`, and the
loop breaks on `total_in >= b.len()` before ever reaching
`json.push(&output_buffer)`, so the output of the final step of every chunk
is dropped (and the pushes that do happen push the whole 1024-byte window,
not the produced bytes). -/
theorem C1_feed_loop_drops_final_output :
    feedLoop identityEngine [1, 2, 3, 4] 8 0 0 [] = .ok 0 [] ∧
    ([] : List Nat) ≠ [1, 2, 3, 4] := by
  constructor
  · rfl
  · decide

/-- C2 (evaluation of the missing finalisation): over every possible run —
any start state, any sequence of poll inputs, ending with the drop of the
stream — the number of engine finalisations performed is zero, never the
exactly-once the specification requires: the source contains no
`inflateEnd`, no reclaiming of the boxed `z_stream`, and no `Drop`
implementation. -/
theorem C2_engine_never_finalized (T : Type) (eng : Engine) (fuel : Nat)
    (utf8Valid : List Nat → Bool) (s : StreamState) (envs : List (Env T)) :
    totalReleases T eng fuel utf8Valid s envs = 0 := by
  induction envs generalizing s with
  | nil => cases s <;> rfl
  | cons e rest ih =>
    have h1 : pollReleases T s e = 0 := by cases s <;> rfl
    simp [totalReleases, h1, ih]

/-- C3 (amended): an inflate step reporting a status other than `Z_OK` and
`Z_BUF_ERROR` makes that poll yield the `EncodingError`, but the machine
stays in `Collecting` — no transition to `Done` happens — and the per-chunk
counter keeps its pre-step value, so a later poll re-enters decompression
with the stale counter. -/
theorem C3_fatal_inflate_stays_collecting (T : Type) (eng : Engine)
    (fuel es ti : Nat) (b buf : List Nat)
    (hfatal : ¬ ((eng.step es (b.drop ti) (min b.length (U32MOD - 1)) 1024 ti).status
          = Z_BUF_ERROR ∨
        (eng.step es (b.drop ti) (min b.length (U32MOD - 1)) 1024 ti).status = Z_OK)) :
    collectingStep T eng (fuel + 1) .Gzip buf es ti .nothing (.chunk b)
      = (.Collecting .Gzip buf
           (eng.step es (b.drop ti) (min b.length (U32MOD - 1)) 1024 ti).engine ti,
         .error (.EncodingError "Failed to decode bytes")) ∧
    isTerminated (.Collecting .Gzip buf
        (eng.step es (b.drop ti) (min b.length (U32MOD - 1)) 1024 ti).engine ti)
      = false := by
  have hfeed : feedLoop eng b (fuel + 1) es ti buf
      = .fatal (eng.step es (b.drop ti) (min b.length (U32MOD - 1)) 1024 ti).engine
          ti buf := by
    simp only [feedLoop]
    rw [if_neg hfatal]
  constructor
  · simp [collectingStep, hfeed]
  · rfl

/-- Witness for C3: the `streamEndEngine` step reports `Z_STREAM_END`. -/
theorem C3_fatal_inflate_stays_collecting_witness :
    collectingStep Unit streamEndEngine (4 + 1) .Gzip [] 0 0 .nothing (.chunk [1, 2])
      = (.Collecting .Gzip []
           (streamEndEngine.step 0 (List.drop 0 [1, 2])
             (min (List.length [1, 2]) (U32MOD - 1)) 1024 0).engine 0,
         .error (.EncodingError "Failed to decode bytes")) ∧
    isTerminated (.Collecting .Gzip []
        (streamEndEngine.step 0 (List.drop 0 [1, 2])
          (min (List.length [1, 2]) (U32MOD - 1)) 1024 0).engine 0)
      = false :=
  C3_fatal_inflate_stays_collecting Unit streamEndEngine 4 0 0 [1, 2] [] (by decide)

/-- C3 as stated is false: on a fatal inflate status the poll yields the
`EncodingError` but the machine does not move to `Done`. -/
theorem C3_counterexample :
    (collectingStep Unit streamEndEngine 5 .Gzip [] 0 0 .nothing (.chunk [1, 2])).2
      = .error (.EncodingError "Failed to decode bytes") ∧
    (collectingStep Unit streamEndEngine 5 .Gzip [] 0 0 .nothing (.chunk [1, 2])).1
      ≠ .Done := by
  constructor
  · decide
  · decide

/-- C4 (amended): a cleanly exhausted body in `Collecting` makes the poll
yield the exhaustion signal, but the machine stays in `Collecting`, so
`is_terminated` reports `false`; the exhaustion signal repeats only because
polling the body again keeps reporting exhaustion while the extractor
yields nothing. -/
theorem C4_body_exhausted_stays_collecting (T : Type) (eng : Engine)
    (fuel : Nat) (utf8Valid : List Nat → Bool) (encoding : ContentEncoding)
    (buf : List Nat) (es ti n : Nat) :
    pollStep T eng fuel utf8Valid (.Collecting encoding buf es ti)
        ⟨.pending, .nothing, .finished⟩
      = (.Collecting encoding buf es ti, .exhausted) ∧
    isTerminated (.Collecting encoding buf es ti) = false ∧
    runPolls T eng fuel utf8Valid (.Collecting encoding buf es ti)
        (List.replicate n ⟨.pending, .nothing, .finished⟩)
      = (.Collecting encoding buf es ti, List.replicate n .exhausted) := by
  refine ⟨rfl, rfl, ?_⟩
  induction n with
  | zero => rfl
  | succ k ih =>
    have hp : pollStep T eng fuel utf8Valid (.Collecting encoding buf es ti)
        ⟨.pending, .nothing, .finished⟩
        = (.Collecting encoding buf es ti, .exhausted) := rfl
    simp only [List.replicate_succ, runPolls, hp, ih]

/-- C4 as stated is false: after the body reports clean exhaustion the
machine is still `Collecting`, not `Done`, and `is_terminated` is false. -/
theorem C4_counterexample :
    (pollStep Unit identityEngine 1 (fun _ => true) (.Collecting .None [] 0 0)
        ⟨.pending, .nothing, .finished⟩).2 = .exhausted ∧
    (pollStep Unit identityEngine 1 (fun _ => true) (.Collecting .None [] 0 0)
        ⟨.pending, .nothing, .finished⟩).1 ≠ .Done ∧
    isTerminated (pollStep Unit identityEngine 1 (fun _ => true)
        (.Collecting .None [] 0 0) ⟨.pending, .nothing, .finished⟩).1 = false := by
  refine ⟨rfl, by decide, rfl⟩

/-- C5 (amended): failed engine initialisation on a 200 gzip response
enters `EncodingError`, and every poll in that state yields the
`EncodingError` again with the state unchanged — the machine never reaches
`Done`, so the error repeats instead of being followed by exhaustion. -/
theorem C5_encoding_error_repeats (T : Type) (eng : Engine) (fuel : Nat)
    (utf8Valid : List Nat → Bool) (contentLength : Option (List Nat))
    (env : Env T) (n : Nat) :
    connectingStep T (.ok 200 (some "gzip") contentLength false)
      = (.EncodingError, .again) ∧
    pollStep T eng fuel utf8Valid .EncodingError env
      = (.EncodingError,
         .error (.EncodingError "Failed to decode the payload with gzip")) ∧
    runPolls T eng fuel utf8Valid .EncodingError (List.replicate n env)
      = (.EncodingError,
         List.replicate n
           (.error (.EncodingError "Failed to decode the payload with gzip"))) := by
  refine ⟨by simp [connectingStep, classifyEncoding, ContentEncoding.fromStr], rfl, ?_⟩
  induction n with
  | zero => rfl
  | succ k ih =>
    have hp : pollStep T eng fuel utf8Valid .EncodingError env
        = (.EncodingError,
           .error (.EncodingError "Failed to decode the payload with gzip")) := rfl
    simp only [List.replicate_succ, runPolls, hp, ih]

/-- C5 as stated is false: polling in `EncodingError` does not move to
`Done`, and a second poll repeats the same terminal error instead of the
exhaustion signal. -/
theorem C5_counterexample :
    (pollStep Unit identityEngine 1 (fun _ => true) .EncodingError
        ⟨.pending, .nothing, .pending⟩).1 ≠ .Done ∧
    (runPolls Unit identityEngine 1 (fun _ => true) .EncodingError
        (List.replicate 2 ⟨.pending, .nothing, .pending⟩)).2
      = [.error (.EncodingError "Failed to decode the payload with gzip"),
         .error (.EncodingError "Failed to decode the payload with gzip")] := by
  constructor
  · decide
  · decide

/-- The poll inputs of an error body delivered as `chunks` and then the
clean end of the body. -/
def errorBodyEnvs (T : Type) (chunks : List (List Nat)) : List (Env T) :=
  chunks.map (fun b => ⟨.pending, .nothing, .chunk b⟩) ++
    [⟨.pending, .nothing, .finished⟩]

/-- Running `CollectingError` over an error body appends every chunk to the
accumulator in arrival order and decodes only after the body is drained. -/
theorem runPolls_collectingError (T : Type) (eng : Engine) (fuel : Nat)
    (utf8Valid : List Nat → Bool) (status cap : Nat)
    (chunks : List (List Nat)) :
    ∀ acc : List Nat,
    runPolls T eng fuel utf8Valid (.CollectingError status cap acc)
        (errorBodyEnvs T chunks)
      = (.Done, List.replicate chunks.length .again ++
          [if utf8Valid (acc ++ chunks.flatten) = true then
             .error (.ApiError status (acc ++ chunks.flatten))
           else .error (.MalformedJson "invalid utf-8")]) := by
  induction chunks with
  | nil =>
    intro acc
    have hp : pollStep T eng fuel utf8Valid (.CollectingError status cap acc)
        ⟨.pending, .nothing, .finished⟩
        = (if utf8Valid acc = true then
             (.Done, .error (.ApiError status acc))
           else (.Done, .error (.MalformedJson "invalid utf-8"))) := rfl
    by_cases hu : utf8Valid acc = true <;>
      simp [errorBodyEnvs, runPolls, hp, hu]
  | cons b rest ih =>
    intro acc
    have hp : pollStep T eng fuel utf8Valid (.CollectingError status cap acc)
        ⟨.pending, .nothing, .chunk b⟩
        = (.CollectingError status cap (acc ++ b), .again) := rfl
    have hrest := ih (acc ++ b)
    simp only [errorBodyEnvs, List.map_cons, List.cons_append, runPolls, hp]
    simp only [errorBodyEnvs] at hrest
    simp [hrest, List.replicate_succ, List.append_assoc]

/-- C6: a response whose status is neither 200 nor 204 enters
`CollectingError` with the pre-sized buffer; every body chunk is appended
in arrival order while only `again` is produced (never an element), and
only after the body is drained are the accumulated bytes decoded — one
`ApiError(status, verbatim concatenated bytes)` when they are valid UTF-8,
one `MalformedJson` otherwise — after which the machine is in `Done`. -/
theorem C6_error_body_drained_then_reported (utf8Valid : List Nat → Bool)
    (status : Nat) (h200 : status ≠ 200) (h204 : status ≠ 204)
    (contentEncoding : Option String) (contentLength : Option (List Nat))
    (initOk : Bool) (eng : Engine) (fuel : Nat) (chunks : List (List Nat)) :
    connectingStep Unit (.ok status contentEncoding contentLength initOk)
      = (.CollectingError status (min (get_content_length contentLength) 0x1000) [],
         .again) ∧
    runPolls Unit eng fuel utf8Valid
        (.CollectingError status (min (get_content_length contentLength) 0x1000) [])
        (errorBodyEnvs Unit chunks)
      = (.Done, List.replicate chunks.length .again ++
          [if utf8Valid chunks.flatten = true then
             .error (.ApiError status chunks.flatten)
           else .error (.MalformedJson "invalid utf-8")]) := by
  constructor
  · simp [connectingStep, h200, h204]
  · have hrun := runPolls_collectingError Unit eng fuel utf8Valid status
      (min (get_content_length contentLength) 0x1000) chunks []
    simpa using hrun

/-- Witness for C6: status 500, body `"boom"` in two chunks, every byte
sequence valid. -/
theorem C6_error_body_drained_then_reported_witness :
    connectingStep Unit (.ok 500 none none true)
      = (.CollectingError 500 (min (get_content_length none) 0x1000) [], .again) ∧
    runPolls Unit identityEngine 1 (fun _ => true)
        (.CollectingError 500 (min (get_content_length none) 0x1000) [])
        (errorBodyEnvs Unit [[98, 111], [111, 109]])
      = (.Done, List.replicate (List.length [[98, 111], [111, 109]]) .again ++
          [if (fun _ => true) (List.flatten [[98, 111], [111, 109]]) = true then
             .error (.ApiError 500 (List.flatten [[98, 111], [111, 109]]))
           else .error (.MalformedJson "invalid utf-8")]) :=
  C6_error_body_drained_then_reported (fun _ => true) 500 (by decide) (by decide)
    none none true identityEngine 1 [[98, 111], [111, 109]]
